import Mathlib

/-
  Verification of the kuling filesystem utility library (src/kuling/find.py).

  The filesystem is modelled as a finite tree of directories and regular
  files; a directory holds an association list from entry names to entries.
  Paths are lists of POSIX segments relative to the root directory, which
  plays the role of the current working directory.  The three public
  operations of find.py (find_matching_paths, move_file, delete_file) are
  translated line by line; the pathlib and OS primitives they call
  (Path parsing, exists, is_file, is_dir, glob, mkdir, unlink) are modelled
  as pure functions on the tree.
-/

set_option autoImplicit false

namespace Kuling

/-- A filesystem entry: a regular file with its byte content, or a
directory with named children (an association list; the first binding of a
name wins, mirroring the fact that real directories have unique names). -/
inductive Entry where
  | file (content : List Nat)
  | dir (children : List (String × Entry))

/-- A filesystem state: the children of the root directory (the current
working directory). -/
abbrev Fs := List (String × Entry)

/-- Resolve a relative path (list of segments) against an entry. -/
def lookupE : Entry → List String → Option Entry
  | e, [] => some e
  | Entry.file _, _ :: _ => none
  | Entry.dir cs, s :: rest =>
    match List.find? (fun q => q.1 == s) cs with
    | some q => lookupE q.2 rest
    | none => none

/-- Resolve a relative path against the root of a filesystem. -/
def lookupR (fs : Fs) (p : List String) : Option Entry :=
  lookupE (Entry.dir fs) p

/-- Model of Path.exists. -/
def pathExistsB (fs : Fs) (p : List String) : Bool :=
  (lookupR fs p).isSome

/-- Model of Path.is_dir. -/
def isDirPath (fs : Fs) (p : List String) : Bool :=
  match lookupR fs p with
  | some (Entry.dir _) => true
  | _ => false

/-- Model of Path.is_file. -/
def isFilePath (fs : Fs) (p : List String) : Bool :=
  match lookupR fs p with
  | some (Entry.file _) => true
  | _ => false

/-- Split a character list on the slash separator. -/
def splitOnSlash : List Char → List (List Char)
  | [] => [[]]
  | c :: rest =>
    if c = '/' then
      [] :: splitOnSlash rest
    else
      match splitOnSlash rest with
      | [] => [[c]]
      | seg :: segs => (c :: seg) :: segs

/-- Model of PurePosixPath parsing for relative paths: split on the slash,
drop empty components and single-dot components (pathlib normalises both
away, so Path("a//./b").parts = ("a", "b")). -/
def parsePath (s : String) : List String :=
  ((splitOnSlash s.data).map (fun cs => String.mk cs)).filter
    (fun seg => seg != "" && seg != ".")

/-- Model of str() on a relative Path: "." for the empty path, otherwise
the segments joined by slashes. -/
def pathStr (p : List String) : String :=
  if p.isEmpty then "." else String.intercalate "/" p

/-- find.py line 3: WILDCARD_CHARS = set of the three glob metacharacters. -/
def WILDCARD_CHARS : List Char := ['*', '?', '[']

/-- Whether a path segment contains a wildcard character
(any(c in part for c in WILDCARD_CHARS)). -/
def hasWildcard (part : String) : Bool :=
  part.data.any (fun c => WILDCARD_CHARS.contains c)

/-- Indices of the wildcard-bearing segments, counting from i: the model of
[i for i, part in enumerate(path.parts) if any(c in part for c in
WILDCARD_CHARS)]. -/
def wildcardPositionsFrom (i : Nat) : List String → List Nat
  | [] => []
  | part :: rest =>
    if hasWildcard part then
      i :: wildcardPositionsFrom (i + 1) rest
    else
      wildcardPositionsFrom (i + 1) rest

/-- The wildcard positions of a segment list, from index 0. -/
def wildcardPositions (parts : List String) : List Nat :=
  wildcardPositionsFrom 0 parts

/- ---------------------------------------------------------------------
   fnmatch / glob model (the pathlib collaborator used on line 41).
   --------------------------------------------------------------------- -/

/-- One token of a compiled fnmatch pattern. -/
inductive Tok where
  | star
  | qmark
  | lit (c : Char)
  | brack (neg : Bool) (set : List Char)
deriving DecidableEq

/-- Scan up to the first closing bracket, returning the content before it
and the remainder after it. -/
def scanClose : List Char → Option (List Char × List Char)
  | [] => none
  | c :: rest =>
    if c = ']' then some ([], rest)
    else (scanClose rest).map (fun pr => (c :: pr.1, pr.2))

/-- Model of the bracket scan of fnmatch.translate: after an opening
bracket, an optional bang negates; a closing bracket placed first is
literal set content; the set then runs to the next closing bracket.  If no
closing bracket exists the opening bracket is a literal character and the
result is none. -/
def parseBrack (ps : List Char) : Option (Bool × List Char × List Char) :=
  match ps with
  | '!' :: ']' :: ps2 => (scanClose ps2).map (fun pr => (true, ']' :: pr.1, pr.2))
  | '!' :: ps2 => (scanClose ps2).map (fun pr => (true, pr.1, pr.2))
  | ']' :: ps2 => (scanClose ps2).map (fun pr => (false, ']' :: pr.1, pr.2))
  | _ => (scanClose ps).map (fun pr => (false, pr.1, pr.2))

theorem scanClose_length : ∀ (l : List Char) (pr : List Char × List Char),
    scanClose l = some pr → pr.2.length < l.length := by
  intro l
  induction l with
  | nil => intro pr h; simp [scanClose] at h
  | cons c rest ih =>
    intro pr h
    unfold scanClose at h
    by_cases hc : c = ']'
    · rw [if_pos hc] at h
      injection h with h1
      subst h1
      simp
    · rw [if_neg hc] at h
      cases hsc : scanClose rest with
      | none => rw [hsc] at h; simp at h
      | some pr2 =>
        rw [hsc] at h
        injection h with h1
        subst h1
        have := ih pr2 hsc
        simp
        omega

theorem parseBrack_length : ∀ (ps : List Char) (tr : Bool × List Char × List Char),
    parseBrack ps = some tr → tr.2.2.length < ps.length + 1 := by
  intro ps tr h
  unfold parseBrack at h
  split at h
  · next ps2 =>
    cases hsc : scanClose ps2 with
    | none => rw [hsc] at h; simp at h
    | some pr2 =>
      rw [hsc] at h
      injection h with h1
      subst h1
      have := scanClose_length ps2 pr2 hsc
      simp
      omega
  · next ps2 _ =>
    cases hsc : scanClose ps2 with
    | none => rw [hsc] at h; simp at h
    | some pr2 =>
      rw [hsc] at h
      injection h with h1
      subst h1
      have := scanClose_length ps2 pr2 hsc
      simp
      omega
  · next ps2 =>
    cases hsc : scanClose ps2 with
    | none => rw [hsc] at h; simp at h
    | some pr2 =>
      rw [hsc] at h
      injection h with h1
      subst h1
      have := scanClose_length ps2 pr2 hsc
      simp
      omega
  · next =>
    cases hsc : scanClose ps with
    | none => rw [hsc] at h; simp at h
    | some pr2 =>
      rw [hsc] at h
      injection h with h1
      subst h1
      have := scanClose_length ps pr2 hsc
      simp
      omega

/-- Compile an fnmatch pattern into tokens. -/
def tokenize : List Char → List Tok
  | [] => []
  | c :: ps =>
    if c = '*' then Tok.star :: tokenize ps
    else if c = '?' then Tok.qmark :: tokenize ps
    else if c = '[' then
      match hb : parseBrack ps with
      | some (neg, set, rest) => Tok.brack neg set :: tokenize rest
      | none => Tok.lit '[' :: tokenize ps
    else Tok.lit c :: tokenize ps
termination_by l => l.length
decreasing_by
  all_goals simp only [List.length_cons]
  all_goals try omega
  rename parseBrack _ = _ => hb2
  have := parseBrack_length _ _ hb2
  simp at this
  omega

/-- Whether a character belongs to a bracketed set, honouring dash ranges
(a trailing dash is a literal dash, as in regular-expression classes). -/
def matchSet : List Char → Char → Bool
  | [], _ => false
  | [x], c => c = x
  | x :: '-' :: [], c => c = x || c = '-'
  | x :: '-' :: y :: rest, c => (x ≤ c && c ≤ y) || matchSet rest c
  | x :: rest, c => c = x || matchSet rest c

mutual

/-- Match a token list against a name, fnmatch style. -/
def matchToks : List Tok → List Char → Bool
  | [], [] => true
  | [], _ :: _ => false
  | Tok.star :: ts, s => matchStar ts s
  | Tok.qmark :: ts, s =>
    match s with
    | [] => false
    | _ :: s2 => matchToks ts s2
  | Tok.brack neg set :: ts, s =>
    match s with
    | [] => false
    | c :: s2 => (matchSet set c != neg) && matchToks ts s2
  | Tok.lit p :: ts, s =>
    match s with
    | [] => false
    | c :: s2 => p == c && matchToks ts s2

/-- The star token absorbs any prefix of the name. -/
def matchStar : List Tok → List Char → Bool
  | ts, [] => matchToks ts []
  | ts, c :: s2 => matchToks ts (c :: s2) || matchStar ts s2

end

/-- Model of fnmatch matching of one glob segment against one name. -/
def fnmatchB (pat name : String) : Bool :=
  matchToks (tokenize pat.data) name.data

mutual

/-- All directories at or below an entry, paired with their paths: the
model of the recursive double-star selector of pathlib, which selects the
starting directory itself and every descendant directory. -/
def dirsUnder : Entry → List String → List (Entry × List String)
  | Entry.file _, _ => []
  | Entry.dir cs, cur => (Entry.dir cs, cur) :: dirsUnderList cs cur

/-- dirsUnder mapped over a list of named children. -/
def dirsUnderList : List (String × Entry) → List String → List (Entry × List String)
  | [], _ => []
  | (n, e) :: rest, cur => dirsUnder e (cur ++ [n]) ++ dirsUnderList rest cur

end

/-- Model of the pathlib glob selector chain: successively match the
pattern segments below an entry.  A double-star segment selects the
current directory and all descendant directories; any other segment is
matched against the child names by fnmatch (pathlib glob, unlike the glob
module, does not special-case hidden files).  Returns the full paths of
the selected entries (files and directories alike; find.py filters). -/
def globFrom (e : Entry) (cur : List String) (segs : List String) : List (List String) :=
  match segs with
  | [] => [cur]
  | seg :: rest =>
    match e with
    | Entry.file _ => []
    | Entry.dir cs =>
      if seg = "**" then
        (dirsUnder (Entry.dir cs) cur).flatMap (fun dp => globFrom dp.1 dp.2 rest)
      else
        cs.flatMap (fun q =>
          if fnmatchB seg q.1 then globFrom q.2 (cur ++ [q.1]) rest else [])
termination_by segs.length
decreasing_by
  · simp
  · simp

/-- Model of base_dir.glob(pattern): run the selector chain from the base
directory (validated to exist by find.py before the call). -/
def globAt (fs : Fs) (base : List String) (segs : List String) : List (List String) :=
  match lookupR fs base with
  | some e => globFrom e base segs
  | none => []

/-- The errors raised by find_matching_paths.  Each constructor is one
raise site of find.py; baseNotFound and baseNotADirectory are both raised
as NotADirectoryError (with distinct messages), noFilesFound and
noMatchFound as FileNotFoundError. -/
inductive FindError where
  | baseNotFound (base : List String)
  | baseNotADirectory (base : List String)
  | noFilesFound (pathPattern : String)
  | noMatchFound (pathPattern : String)
deriving DecidableEq

/-- Whether an error is one of the two empty-result errors (the
FileNotFoundError raise sites of find.py, lines 21-22 and 43-44). -/
def FindError.isNoMatch : FindError → Bool
  | FindError.noFilesFound _ => true
  | FindError.noMatchFound _ => true
  | _ => false

/-- find.py lines 34-46: the wildcard branch of find_matching_paths at a
given base directory.  Validate that the base exists and is a directory
(lines 34-38), glob the remaining pattern and keep regular files only
(lines 40-41), and apply the raise-on-empty policy (lines 43-46).  The
empty base path denotes the current working directory (the root of the
model), which is what Path(".") resolves to. -/
def globBranch (fs : Fs) (baseDir : List String) (rel : List String)
    (pathPattern : String) (raiseErrorIfNoMatch : Bool) :
    Fs × Except FindError (List (List String)) :=
  if !(pathExistsB fs baseDir) then
    (fs, Except.error (FindError.baseNotFound baseDir))
  else if !(isDirPath fs baseDir) then
    (fs, Except.error (FindError.baseNotADirectory baseDir))
  else
    let matchList := (globAt fs baseDir rel).filter (fun f => isFilePath fs f)
    if raiseErrorIfNoMatch && matchList.isEmpty then
      (fs, Except.error (FindError.noMatchFound pathPattern))
    else
      (fs, Except.ok matchList)

/-- find.py lines 6-46, find_matching_paths: decompose the pattern into
segments, find the wildcard positions; with no wildcard treat the pattern
as a literal path (result [path] when it is a regular file, else empty,
lines 18-24); with a wildcard compute the base directory from the segments
before the first wildcard (Path(".") — the empty path — when the wildcard
leads, lines 26-32) and run the glob branch.  The filesystem component of
the result records any mutation; find_matching_paths only reads. -/
def find_matching_paths (fs : Fs) (pathPattern : String)
    (raiseErrorIfNoMatch : Bool) :
    Fs × Except FindError (List (List String)) :=
  let parts := parsePath pathPattern
  match wildcardPositions parts with
  | [] =>
    let matchList := if isFilePath fs parts then [parts] else []
    if raiseErrorIfNoMatch && matchList.isEmpty then
      (fs, Except.error (FindError.noFilesFound pathPattern))
    else
      (fs, Except.ok matchList)
  | firstWildcardPosition :: _ =>
    let baseDir :=
      if firstWildcardPosition > 0 then parts.take firstWildcardPosition
      else []
    globBranch fs baseDir (parts.drop firstWildcardPosition) pathPattern
      raiseErrorIfNoMatch

/-- Statement helper: the guard conditions of find_matching_paths that are
not about emptiness of the result.  True when the pattern has no wildcard
segment, or when its base directory (segments before the first wildcard)
exists and is a directory. -/
def baseValidationOk (fs : Fs) (parts : List String) : Bool :=
  match wildcardPositions parts with
  | [] => true
  | k :: _ => pathExistsB fs (parts.take k) && isDirPath fs (parts.take k)

/-- Statement helper: the filtered result set of find_matching_paths
before the raise-on-empty policy is applied. -/
def resultSet (fs : Fs) (parts : List String) : List (List String) :=
  match wildcardPositions parts with
  | [] => if isFilePath fs parts then [parts] else []
  | k :: _ => (globAt fs (parts.take k) (parts.drop k)).filter
      (fun f => isFilePath fs f)

/- ---------------------------------------------------------------------
   move_file and delete_file (find.py lines 49-79) and the OS mutation
   primitives they call.
   --------------------------------------------------------------------- -/

/-- The Python exceptions that can escape move_file and delete_file. -/
inductive PyError where
  | fileNotFound (msg : String)
  | isADirectory (msg : String)
  | notADirectory (name : String)
  | fileExists (name : String)
  | nameError
deriving DecidableEq

/-- Replace the entry bound to a name in a children list, keeping every
other binding. -/
def replaceChild (cs : List (String × Entry)) (s : String) (e : Entry) :
    List (String × Entry) :=
  cs.map (fun q => if q.1 == s then (q.1, e) else q)

/-- Model of Path.mkdir(parents=True, exist_ok=True) below a children
list: walk the segments, descending into existing directories, creating
missing ones.  An existing regular file at the final segment raises
FileExistsError; one at an intermediate segment raises NotADirectoryError
(exist_ok only tolerates existing directories). -/
def mkAux : List (String × Entry) → List String → Except PyError (List (String × Entry))
  | cs, [] => Except.ok cs
  | cs, s :: rest =>
    match List.find? (fun q => q.1 == s) cs with
    | some q =>
      match q.2 with
      | Entry.dir sub =>
        (mkAux sub rest).map (fun sub2 => replaceChild cs s (Entry.dir sub2))
      | Entry.file _ =>
        if rest.isEmpty then Except.error (PyError.fileExists s)
        else Except.error (PyError.notADirectory s)
    | none => (mkAux [] rest).map (fun sub => cs ++ [(s, Entry.dir sub)])

/-- Model of destination.parent.mkdir(parents=True, exist_ok=True). -/
def mkdirp (fs : Fs) (p : List String) : Except PyError Fs :=
  mkAux fs p

/-- Remove the entry at a path from a children list (no-op when the path
does not lead to an entry). -/
def removeChildren : List (String × Entry) → List String → List (String × Entry)
  | cs, [] => cs
  | cs, s :: rest =>
    match rest with
    | [] => cs.filter (fun q => q.1 != s)
    | _ :: _ =>
      cs.map (fun q =>
        if q.1 == s then
          match q.2 with
          | Entry.dir sub => (q.1, Entry.dir (removeChildren sub rest))
          | e => (q.1, e)
        else q)

/-- Model of Path.unlink on POSIX: remove a regular file; an existing
directory raises IsADirectoryError; a missing path raises
FileNotFoundError. -/
def unlink (fs : Fs) (p : List String) : Except PyError Fs :=
  match lookupR fs p with
  | some (Entry.file _) => Except.ok (removeChildren fs p)
  | some (Entry.dir _) =>
    Except.error (PyError.isADirectory ("Is a directory: " ++ pathStr p))
  | none => Except.error (PyError.fileNotFound (pathStr p))

/-- find.py lines 60-61: when the destination is an existing directory the
resolved destination is destination / source.name. -/
def resolvedDestination (fs : Fs) (source destination : String) : List String :=
  let src := parsePath source
  let dst := parsePath destination
  if isDirPath fs dst then dst ++ [src.getLastD ""] else dst

/-- find.py lines 49-69, move_file: raise FileNotFoundError when the
source does not exist (lines 57-58); resolve a directory destination
(lines 60-61); create the parent directories of the destination (line 63).
Line 64 then evaluates shutil.copy2(src=source, dst=destination) — but
find.py imports only Path from pathlib and never imports shutil, so the
name shutil is unbound there and evaluating that line raises NameError.
The lines that follow (the delete_original unlink and the return) are
therefore unreachable, for either value of delete_original. -/
def move_file (fs : Fs) (source destination : String) (deleteOriginal : Bool) :
    Fs × Except PyError (List String) :=
  let src := parsePath source
  if !(pathExistsB fs src) then
    (fs, Except.error (PyError.fileNotFound ("File not found: " ++ pathStr src)))
  else
    let dst := resolvedDestination fs source destination
    match mkdirp fs dst.dropLast with
    | Except.error e => (fs, Except.error e)
    | Except.ok fs2 => (fs2, Except.error PyError.nameError)

/-- find.py lines 72-79, delete_file: return true after unlinking an
existing path, false when the path does not exist.  The unlink itself can
still raise (it is not guarded), which the filesystem component of the
result ignores in that case. -/
def delete_file (fs : Fs) (path : String) : Fs × Except PyError Bool :=
  let p := parsePath path
  if pathExistsB fs p then
    match unlink fs p with
    | Except.ok fs2 => (fs2, Except.ok true)
    | Except.error e => (fs, Except.error e)
  else
    (fs, Except.ok false)

/- ---------------------------------------------------------------------
   Concrete filesystems used by the closed theorems below.
   --------------------------------------------------------------------- -/

/-- A filesystem holding the single file a/b/file.txt with content "hi". -/
def fsScenarioD : Fs :=
  [("a", Entry.dir [("b", Entry.dir [("file.txt", Entry.file [104, 105])])])]

/-- fsScenarioD after move_file has created the directories x/y. -/
def fsScenarioD2 : Fs :=
  [("a", Entry.dir [("b", Entry.dir [("file.txt", Entry.file [104, 105])])]),
   ("x", Entry.dir [("y", Entry.dir [])])]

/-- A filesystem holding the two regular files s and f. -/
def fsTwoFiles : Fs :=
  [("s", Entry.file [1]), ("f", Entry.file [2])]

/-- A filesystem holding one empty directory d. -/
def fsOneDir : Fs :=
  [("d", Entry.dir [])]

/-- A filesystem holding one regular file f.txt. -/
def fsOneFile : Fs :=
  [("f.txt", Entry.file [7])]

/-- A filesystem holding one regular file named a. -/
def fsFileA : Fs :=
  [("a", Entry.file [])]

/-- A filesystem holding one empty directory named a. -/
def fsDirA : Fs :=
  [("a", Entry.dir [])]

/- ---------------------------------------------------------------------
   Helper lemmas.
   --------------------------------------------------------------------- -/

theorem wildcardPositionsFrom_nil_of (parts : List String) : ∀ (i : Nat),
    (∀ s ∈ parts, hasWildcard s = false) →
    wildcardPositionsFrom i parts = [] := by
  induction parts with
  | nil => intro i _; rfl
  | cons part rest ih =>
    intro i h
    have hp : hasWildcard part = false := h part (List.mem_cons_self part rest)
    have hr := ih (i + 1) (fun s hs => h s (List.mem_cons_of_mem part hs))
    simp [wildcardPositionsFrom, hp, hr]

theorem wildcardPositionsFrom_head (parts : List String) : ∀ (i k : Nat),
    k < parts.length →
    hasWildcard (parts.getD k "") = true →
    (∀ j, j < k → hasWildcard (parts.getD j "") = false) →
    ∃ tl, wildcardPositionsFrom i parts = (i + k) :: tl := by
  induction parts with
  | nil => intro i k hk _ _; simp at hk
  | cons part rest ih =>
    intro i k hk hw hmin
    cases k with
    | zero =>
      simp only [List.getD_cons_zero] at hw
      exact ⟨wildcardPositionsFrom (i + 1) rest, by simp [wildcardPositionsFrom, hw]⟩
    | succ k2 =>
      have h0 : hasWildcard part = false := by
        have := hmin 0 (Nat.succ_pos k2)
        simpa using this
      obtain ⟨tl, htl⟩ := ih (i + 1) k2 (by simpa using hk) (by simpa using hw)
        (fun j hj => by
          have := hmin (j + 1) (Nat.succ_lt_succ hj)
          simpa using this)
      refine ⟨tl, ?_⟩
      rw [show i + (k2 + 1) = (i + 1) + k2 by omega]
      simp [wildcardPositionsFrom, h0, htl]

theorem find_eq_globBranch (fs : Fs) (pat : String) (b : Bool) (k : Nat)
    (tl : List Nat) (h : wildcardPositions (parsePath pat) = k :: tl) :
    find_matching_paths fs pat b
      = globBranch fs ((parsePath pat).take k) ((parsePath pat).drop k) pat b := by
  cases k with
  | zero => simp [find_matching_paths, h]
  | succ n => simp [find_matching_paths, h]

theorem globBranch_fst (fs : Fs) (baseDir rel : List String) (pat : String)
    (b : Bool) : (globBranch fs baseDir rel pat b).1 = fs := by
  rw [globBranch]
  split
  · rfl
  split
  · rfl
  dsimp only
  split <;> rfl

theorem find_matching_paths_fst (fs : Fs) (pat : String) (b : Bool) :
    (find_matching_paths fs pat b).1 = fs := by
  cases hwp : wildcardPositions (parsePath pat) with
  | nil =>
    simp only [find_matching_paths, hwp]
    split <;> split <;> rfl
  | cons k tl =>
    simp only [find_matching_paths, hwp]
    exact globBranch_fst fs _ _ pat b

theorem find?_map_fstPreserving (t : String)
    (f : String × Entry → String × Entry) (hf : ∀ q, (f q).1 = q.1) :
    ∀ (cs : List (String × Entry)),
    List.find? (fun r => r.1 == t) (cs.map f)
      = Option.map f (List.find? (fun r => r.1 == t) cs) := by
  intro cs
  induction cs with
  | nil => rfl
  | cons c cs ih =>
    simp only [List.map_cons, List.find?_cons]
    rw [show ((f c).1 == t) = (c.1 == t) by rw [hf]]
    cases hct : c.1 == t
    · simpa using ih
    · simp

theorem find?_filter_ne (s : String) (cs : List (String × Entry)) :
    List.find? (fun r => r.1 == s) (cs.filter (fun r => r.1 != s)) = none := by
  induction cs with
  | nil => rfl
  | cons c cs ih =>
    cases hcs : c.1 == s
    · simp only [List.filter_cons, bne, hcs, Bool.not_false, if_true]
      simp [List.find?_cons, hcs, ih]
    · simp [List.filter_cons, bne, hcs, ih]

theorem mkAux_nil_no_file : ∀ (p q : List String) (sub : List (String × Entry))
    (b : List Nat), mkAux [] p = Except.ok sub →
    lookupE (Entry.dir sub) q ≠ some (Entry.file b) := by
  intro p
  induction p with
  | nil =>
    intro q sub b h
    simp only [mkAux, Except.ok.injEq] at h
    subst h
    cases q with
    | nil => simp [lookupE]
    | cons t q2 => simp [lookupE]
  | cons s rest ih =>
    intro q sub b h
    simp only [mkAux, List.find?_nil] at h
    cases hrec : mkAux [] rest with
    | error e => rw [hrec] at h; simp [Except.map] at h
    | ok sub0 =>
      rw [hrec] at h
      simp only [Except.map, List.nil_append, Except.ok.injEq] at h
      subst h
      cases q with
      | nil => simp [lookupE]
      | cons t q2 =>
        simp only [lookupE]
        cases hst : s == t
        · simp [List.find?_cons, hst]
        · simp only [List.find?_cons, hst]
          exact ih q2 sub0 b hrec

theorem mkAux_isDir : ∀ (p : List String) (cs cs2 : List (String × Entry)),
    mkAux cs p = Except.ok cs2 →
    ∃ sub, lookupE (Entry.dir cs2) p = some (Entry.dir sub) := by
  intro p
  induction p with
  | nil =>
    intro cs cs2 h
    simp only [mkAux, Except.ok.injEq] at h
    subst h
    exact ⟨cs, rfl⟩
  | cons s rest ih =>
    intro cs cs2 h
    simp only [mkAux] at h
    cases hfind : List.find? (fun q => q.1 == s) cs with
    | some q0 =>
      simp only [hfind] at h
      cases hq0 : q0.2 with
      | file bb =>
        simp only [hq0] at h
        split at h <;> simp at h
      | dir sub =>
        simp only [hq0] at h
        cases hrec : mkAux sub rest with
        | error e => simp only [hrec, Except.map] at h; exact Except.noConfusion h
        | ok sub2 =>
          simp only [hrec, Except.map, Except.ok.injEq] at h
          subst h
          have hq0s : (q0.1 == s) = true := by
            simpa using List.find?_some hfind
          simp only [lookupE, replaceChild]
          rw [find?_map_fstPreserving s _ (fun q => by split <;> rfl)]
          rw [hfind]
          simp only [Option.map_some', hq0s, if_true]
          exact ih sub sub2 hrec
    | none =>
      simp only [hfind] at h
      cases hrec : mkAux [] rest with
      | error e => simp only [hrec, Except.map] at h; exact Except.noConfusion h
      | ok sub =>
        simp only [hrec, Except.map, Except.ok.injEq] at h
        subst h
        simp only [lookupE]
        rw [List.find?_append, hfind]
        simp only [Option.or, List.find?_cons, beq_self_eq_true, if_true]
        exact ih [] sub hrec

theorem mkAux_file_iff : ∀ (p : List String) (cs cs2 : List (String × Entry)),
    mkAux cs p = Except.ok cs2 →
    ∀ (q : List String) (b : List Nat),
      lookupE (Entry.dir cs2) q = some (Entry.file b)
        ↔ lookupE (Entry.dir cs) q = some (Entry.file b) := by
  intro p
  induction p with
  | nil =>
    intro cs cs2 h q b
    simp only [mkAux, Except.ok.injEq] at h
    subst h
    exact Iff.rfl
  | cons s rest ih =>
    intro cs cs2 h q b
    simp only [mkAux] at h
    cases hfind : List.find? (fun r => r.1 == s) cs with
    | some q0 =>
      simp only [hfind] at h
      cases hq0 : q0.2 with
      | file bb =>
        simp only [hq0] at h
        split at h <;> simp at h
      | dir sub =>
        simp only [hq0] at h
        cases hrec : mkAux sub rest with
        | error e => simp only [hrec, Except.map] at h; exact Except.noConfusion h
        | ok sub2 =>
          simp only [hrec, Except.map, Except.ok.injEq] at h
          subst h
          have hq0s : (q0.1 == s) = true := by
            simpa using List.find?_some hfind
          cases q with
          | nil => simp [lookupE]
          | cons t qrest =>
            simp only [lookupE, replaceChild]
            rw [find?_map_fstPreserving t _ (fun q => by split <;> rfl)]
            cases hft : List.find? (fun r => r.1 == t) cs with
            | none => exact Iff.rfl
            | some r =>
              simp only [Option.map_some']
              cases hrs : r.1 == s
              · rw [if_neg (by simp [hrs])]
              · rw [if_pos (by simp [hrs])]
                have hrt : (r.1 == t) = true := by
                  simpa using List.find?_some hft
                have hts : t = s := by
                  have h1 : r.1 = t := by simpa using hrt
                  have h2 : r.1 = s := by simpa using hrs
                  rw [← h1, h2]
                subst hts
                have hre : q0 = r := by
                  rw [hfind] at hft
                  simpa using hft
                subst hre
                rw [hq0]
                exact ih sub sub2 hrec qrest b
    | none =>
      simp only [hfind] at h
      cases hrec : mkAux [] rest with
      | error e => simp only [hrec, Except.map] at h; exact Except.noConfusion h
      | ok sub =>
        simp only [hrec, Except.map, Except.ok.injEq] at h
        subst h
        cases q with
        | nil => simp [lookupE]
        | cons t qrest =>
          simp only [lookupE]
          rw [List.find?_append]
          cases hft : List.find? (fun r => r.1 == t) cs with
          | some r => simp [Option.or]
          | none =>
            simp only [Option.or, List.find?_cons]
            cases hst : s == t
            · simp
            · simp only [if_true]
              constructor
              · intro hcontra
                exact absurd hcontra (mkAux_nil_no_file rest qrest sub b hrec)
              · intro hcontra
                simp at hcontra

theorem lookupE_removeChildren : ∀ (p : List String) (cs : List (String × Entry))
    (b : List Nat), lookupE (Entry.dir cs) p = some (Entry.file b) →
    lookupE (Entry.dir (removeChildren cs p)) p = none := by
  intro p
  induction p with
  | nil => intro cs b h; simp [lookupE] at h
  | cons s rest ih =>
    intro cs b h
    cases rest with
    | nil =>
      simp only [removeChildren, lookupE]
      rw [find?_filter_ne]
    | cons r rest2 =>
      simp only [lookupE] at h
      cases hfind : List.find? (fun q => q.1 == s) cs with
      | none => simp only [hfind] at h; exact Option.noConfusion h
      | some q0 =>
        simp only [hfind] at h
        cases hq0 : q0.2 with
        | file bb => simp only [hq0, lookupE] at h; exact Option.noConfusion h
        | dir sub =>
          simp only [hq0] at h
          have hq0s : (q0.1 == s) = true := by
            simpa using List.find?_some hfind
          simp only [removeChildren, lookupE]
          rw [find?_map_fstPreserving s _
            (fun q => by obtain ⟨qn, qe⟩ := q; cases qe <;> split <;> rfl)]
          rw [hfind]
          simp only [Option.map_some', hq0s, if_true, hq0]
          exact ih sub b h

/- ---------------------------------------------------------------------
   Claims.
   --------------------------------------------------------------------- -/

/-- C1: spec scenario D expects move_file on the existing source
a/b/file.txt with destination x/y/file.txt (directory x/y absent,
delete_original left false) to create the destination directories, remove
the source and write the bytes to the destination.  The code violates
this: it creates x/y and then raises NameError (find.py never imports
shutil but calls shutil.copy2), so afterwards the source file still exists
and no destination file was ever written.  The theorem evaluates the code
at the failing input of the claim. -/
theorem c1_move_scenario_d :
    move_file fsScenarioD "a/b/file.txt" "x/y/file.txt" false
      = (fsScenarioD2, Except.error PyError.nameError)
    ∧ isFilePath fsScenarioD2 ["a", "b", "file.txt"] = true
    ∧ pathExistsB fsScenarioD2 ["x", "y", "file.txt"] = false
    ∧ isDirPath fsScenarioD2 ["x", "y"] = true :=
  ⟨rfl, rfl, rfl, rfl⟩

/-- C2 counterexample: the claim quantifies over every call whose source
exists, but when the parent of the destination is blocked by an existing
regular file, mkdir itself raises (FileExistsError here) before the
shutil.copy2 line is reached, so no parent directory is created and the
raised error is not a NameError. -/
theorem c2_counterexample :
    move_file fsTwoFiles "s" "f/x.txt" false
      = (fsTwoFiles, Except.error (PyError.fileExists "f"))
    ∧ PyError.fileExists "f" ≠ PyError.nameError :=
  ⟨rfl, by decide⟩

/-- C2 (amended): for every call to move_file whose source exists and
whose destination parent directories can be created, the function creates
those directories and then raises an unhandled NameError, because find.py
never imports shutil yet calls shutil.copy2; the set of regular files (and
their contents) is unchanged, so no content is copied and the source is
never deleted — for either value of delete_original. -/
theorem c2_move_raises_name_error (fs : Fs) (source destination : String)
    (del : Bool) (fs2 : Fs)
    (hsrc : pathExistsB fs (parsePath source) = true)
    (hmk : mkdirp fs (resolvedDestination fs source destination).dropLast
      = Except.ok fs2) :
    move_file fs source destination del = (fs2, Except.error PyError.nameError)
    ∧ isDirPath fs2 ((resolvedDestination fs source destination).dropLast) = true
    ∧ (∀ (q : List String) (b : List Nat),
        lookupR fs2 q = some (Entry.file b) ↔ lookupR fs q = some (Entry.file b)) := by
  refine ⟨?_, ?_, ?_⟩
  · simp [move_file, hsrc, hmk]
  · obtain ⟨sub, hsub⟩ := mkAux_isDir
      ((resolvedDestination fs source destination).dropLast) fs fs2 hmk
    simp [isDirPath, lookupR, hsub]
  · intro q b
    exact mkAux_file_iff ((resolvedDestination fs source destination).dropLast)
      fs fs2 hmk q b

/-- C2 witness: a concrete call on which the amended claim applies. -/
theorem c2_witness :
    move_file [("s", Entry.file [1])] "s" "x/y/f.txt" false
      = ([("s", Entry.file [1]), ("x", Entry.dir [("y", Entry.dir [])])],
         Except.error PyError.nameError) :=
  (c2_move_raises_name_error [("s", Entry.file [1])] "s" "x/y/f.txt" false
    [("s", Entry.file [1]), ("x", Entry.dir [("y", Entry.dir [])])]
    rfl rfl).1

/-- C3 counterexample: delete_file is claimed never to raise, but on a
path naming an existing directory the exists-guard passes and unlink
raises IsADirectoryError. -/
theorem c3_counterexample :
    delete_file fsOneDir "d"
      = (fsOneDir, Except.error (PyError.isADirectory "Is a directory: d")) :=
  rfl

/-- C3 (amended): for every input path that is not an existing directory,
delete_file never raises: it returns true when the path existed (and the
entry is removed, so it no longer exists afterwards) and false when the
path did not exist; a missing file is not an error.  On an existing
directory the unguarded unlink raises IsADirectoryError. -/
theorem c3_delete_no_raise (fs : Fs) (path : String)
    (h : isDirPath fs (parsePath path) = false) :
    (pathExistsB fs (parsePath path) = true →
      delete_file fs path = (removeChildren fs (parsePath path), Except.ok true)
      ∧ pathExistsB (removeChildren fs (parsePath path)) (parsePath path) = false)
    ∧ (pathExistsB fs (parsePath path) = false →
      delete_file fs path = (fs, Except.ok false)) := by
  constructor
  · intro hex
    have hfile : ∃ b, lookupR fs (parsePath path) = some (Entry.file b) := by
      cases hl : lookupR fs (parsePath path) with
      | none =>
        rw [pathExistsB, hl] at hex
        simp at hex
      | some e =>
        cases e with
        | file b => exact ⟨b, rfl⟩
        | dir cs =>
          unfold isDirPath at h
          rw [hl] at h
          simp at h
    obtain ⟨b, hb⟩ := hfile
    constructor
    · simp [delete_file, hex, unlink, hb]
    · have hrem := lookupE_removeChildren (parsePath path) fs b hb
      simp [pathExistsB, lookupR, hrem]
  · intro hnex
    simp [delete_file, hnex]

/-- C3 witness: deleting an existing file returns true and removes it;
deleting a missing path returns false. -/
theorem c3_witness :
    delete_file fsOneFile "f.txt" = ([], Except.ok true)
    ∧ delete_file fsOneFile "missing.txt" = (fsOneFile, Except.ok false) := by
  constructor
  · exact (((c3_delete_no_raise fsOneFile "f.txt" rfl).1 rfl).1 : _)
  · exact (c3_delete_no_raise fsOneFile "missing.txt" rfl).2 rfl

/-- C4: for every pattern whose first wildcard-bearing segment sits at
index k and whose base-directory prefix (the k segments before it) does
not exist, find_matching_paths fails with the base-not-found error, for
both values of the raise flag. -/
theorem c4_base_not_found (fs : Fs) (pat : String) (b : Bool) (k : Nat)
    (hk : k < (parsePath pat).length)
    (hw : hasWildcard ((parsePath pat).getD k "") = true)
    (hmin : ∀ j, j < k → hasWildcard ((parsePath pat).getD j "") = false)
    (hbase : pathExistsB fs ((parsePath pat).take k) = false) :
    find_matching_paths fs pat b
      = (fs, Except.error (FindError.baseNotFound ((parsePath pat).take k))) := by
  obtain ⟨tl, htl⟩ := wildcardPositionsFrom_head (parsePath pat) 0 k hk hw hmin
  rw [Nat.zero_add] at htl
  rw [find_eq_globBranch fs pat b k tl htl]
  simp [globBranch, hbase]

/-- C4 witness: the empty filesystem with pattern a/* and the raise flag
set still fails with base-not-found. -/
theorem c4_witness :
    pathExistsB ([] : Fs) ((parsePath "a/*").take 1) = false
    ∧ find_matching_paths ([] : Fs) "a/*" true
        = ([], Except.error (FindError.baseNotFound ((parsePath "a/*").take 1))) :=
  ⟨rfl, c4_base_not_found [] "a/*" true 1 (by decide) rfl (by decide) rfl⟩

/-- C5: for every pattern whose first wildcard-bearing segment sits at
index k and whose base-directory prefix exists but is a regular file,
find_matching_paths fails with the base-not-a-directory error — an error
distinct from base-not-found — for both values of the raise flag. -/
theorem c5_base_not_a_directory (fs : Fs) (pat : String) (b : Bool) (k : Nat)
    (hk : k < (parsePath pat).length)
    (hw : hasWildcard ((parsePath pat).getD k "") = true)
    (hmin : ∀ j, j < k → hasWildcard ((parsePath pat).getD j "") = false)
    (hex : pathExistsB fs ((parsePath pat).take k) = true)
    (hdir : isDirPath fs ((parsePath pat).take k) = false) :
    find_matching_paths fs pat b
      = (fs, Except.error (FindError.baseNotADirectory ((parsePath pat).take k)))
    ∧ (∀ base2, FindError.baseNotADirectory ((parsePath pat).take k)
        ≠ FindError.baseNotFound base2) := by
  constructor
  · obtain ⟨tl, htl⟩ := wildcardPositionsFrom_head (parsePath pat) 0 k hk hw hmin
    rw [Nat.zero_add] at htl
    rw [find_eq_globBranch fs pat b k tl htl]
    simp [globBranch, hex, hdir]
  · intro base2 hcontra
    exact FindError.noConfusion hcontra

/-- C5 witness: a filesystem where a is a regular file, pattern a/*. -/
theorem c5_witness :
    pathExistsB fsFileA ((parsePath "a/*").take 1) = true
    ∧ isDirPath fsFileA ((parsePath "a/*").take 1) = false
    ∧ find_matching_paths fsFileA "a/*" false
        = (fsFileA,
           Except.error (FindError.baseNotADirectory ((parsePath "a/*").take 1))) :=
  ⟨rfl, rfl,
    (c5_base_not_a_directory fsFileA "a/*" false 1 (by decide) rfl (by decide)
      rfl rfl).1⟩

/-- C6: for every pattern that passes decomposition and base validation,
with the raise flag off the (possibly empty) filtered result set is
returned without error, and an error is raised if and only if the flag is
on and the filtered result set is empty; any such error is one of the two
no-match errors. -/
theorem c6_no_match_policy (fs : Fs) (pat : String) (b : Bool)
    (h : baseValidationOk fs (parsePath pat) = true) :
    find_matching_paths fs pat false = (fs, Except.ok (resultSet fs (parsePath pat)))
    ∧ ((find_matching_paths fs pat b).2.isOk = false
        ↔ (b = true ∧ resultSet fs (parsePath pat) = []))
    ∧ (∀ e, (find_matching_paths fs pat b).2 = Except.error e →
        FindError.isNoMatch e = true) := by
  cases hwp : wildcardPositions (parsePath pat) with
  | nil =>
    cases hf : isFilePath fs (parsePath pat) with
    | true =>
      refine ⟨by simp [find_matching_paths, resultSet, hwp, hf], ?_, ?_⟩
      · simp [find_matching_paths, resultSet, hwp, hf, Except.isOk, Except.toBool]
      · intro e he
        simp [find_matching_paths, hwp, hf] at he
    | false =>
      cases b with
      | true =>
        refine ⟨by simp [find_matching_paths, resultSet, hwp, hf], ?_, ?_⟩
        · simp [find_matching_paths, resultSet, hwp, hf, Except.isOk, Except.toBool]
        · intro e he
          simp [find_matching_paths, hwp, hf] at he
          subst he
          rfl
      | false =>
        refine ⟨by simp [find_matching_paths, resultSet, hwp, hf], ?_, ?_⟩
        · simp [find_matching_paths, resultSet, hwp, hf, Except.isOk, Except.toBool]
        · intro e he
          simp [find_matching_paths, hwp, hf] at he
  | cons k tl =>
    rw [baseValidationOk, hwp] at h
    rw [Bool.and_eq_true] at h
    obtain ⟨h1, h2⟩ := h
    have hres : resultSet fs (parsePath pat)
        = (globAt fs ((parsePath pat).take k) ((parsePath pat).drop k)).filter
            (fun f => isFilePath fs f) := by
      rw [resultSet, hwp]
    rw [find_eq_globBranch fs pat false k tl hwp,
      find_eq_globBranch fs pat b k tl hwp]
    cases hempt : ((globAt fs ((parsePath pat).take k)
        ((parsePath pat).drop k)).filter (fun f => isFilePath fs f)).isEmpty with
    | false =>
      have hne : (globAt fs ((parsePath pat).take k)
          ((parsePath pat).drop k)).filter (fun f => isFilePath fs f) ≠ [] := by
        intro hh
        rw [hh] at hempt
        simp at hempt
      refine ⟨by simp [globBranch, h1, h2, hres, hempt], ?_, ?_⟩
      · rw [hres]
        simp [globBranch, h1, h2, hempt, Except.isOk, Except.toBool, hne]
      · intro e he
        simp [globBranch, h1, h2, hempt] at he
    | true =>
      have hnil : (globAt fs ((parsePath pat).take k)
          ((parsePath pat).drop k)).filter (fun f => isFilePath fs f) = [] := by
        simpa using hempt
      cases b with
      | true =>
        refine ⟨by simp [globBranch, h1, h2, hres, hempt], ?_, ?_⟩
        · rw [hres]
          simp [globBranch, h1, h2, hempt, hnil, Except.isOk, Except.toBool]
        · intro e he
          simp [globBranch, h1, h2, hempt] at he
          subst he
          rfl
      | false =>
        refine ⟨by simp [globBranch, h1, h2, hres, hempt], ?_, ?_⟩
        · rw [hres]
          simp [globBranch, h1, h2, hempt, hnil, Except.isOk, Except.toBool]
        · intro e he
          simp [globBranch, h1, h2, hempt] at he

/-- C6 witness: the empty filesystem with pattern *.xyz passes base
validation and, with the raise flag off, returns the empty result set
without error (spec scenario B). -/
theorem c6_witness :
    baseValidationOk ([] : Fs) (parsePath "*.xyz") = true
    ∧ find_matching_paths ([] : Fs) "*.xyz" false
        = ([], Except.ok (resultSet [] (parsePath "*.xyz"))) :=
  ⟨rfl, (c6_no_match_policy [] "*.xyz" false rfl).1⟩

/-- C7: for every pattern with no wildcard character in any segment,
find_matching_paths with the raise flag off returns the singleton holding
the literal path when that path is a regular file, and the empty result
otherwise — in particular when the path names an existing directory. -/
theorem c7_literal_path (fs : Fs) (pat : String)
    (h : ∀ s ∈ parsePath pat, hasWildcard s = false) :
    find_matching_paths fs pat false
      = (fs, Except.ok
          (if isFilePath fs (parsePath pat) then [parsePath pat] else [])) := by
  have hwp : wildcardPositions (parsePath pat) = [] :=
    wildcardPositionsFrom_nil_of (parsePath pat) 0 h
  cases hf : isFilePath fs (parsePath pat) <;>
    simp [find_matching_paths, hwp, hf]

/-- C7 witness: a wildcard-free pattern naming an existing regular file. -/
theorem c7_witness :
    find_matching_paths fsOneFile "f.txt" false
      = (fsOneFile, Except.ok
          (if isFilePath fsOneFile (parsePath "f.txt")
            then [parsePath "f.txt"] else [])) :=
  c7_literal_path fsOneFile "f.txt" (by decide)

/-- C8: every path in a result set returned by find_matching_paths is a
regular file of the filesystem at enumeration time; directories and other
entries are never returned. -/
theorem c8_only_regular_files (fs : Fs) (pat : String) (b : Bool)
    (l : List (List String))
    (h : (find_matching_paths fs pat b).2 = Except.ok l) :
    ∀ p ∈ l, isFilePath fs p = true := by
  intro p hp
  cases hwp : wildcardPositions (parsePath pat) with
  | nil =>
    cases hf : isFilePath fs (parsePath pat) with
    | true =>
      simp [find_matching_paths, hwp, hf] at h
      subst h
      simp at hp
      rw [hp]
      exact hf
    | false =>
      cases b with
      | true => simp [find_matching_paths, hwp, hf] at h
      | false =>
        simp [find_matching_paths, hwp, hf] at h
        subst h
        simp at hp
  | cons k tl =>
    rw [find_eq_globBranch fs pat b k tl hwp] at h
    rw [globBranch] at h
    split at h
    · simp at h
    · split at h
      · simp at h
      · dsimp only at h
        split at h
        · simp at h
        · simp only [Except.ok.injEq] at h
          subst h
          exact (List.mem_filter.mp hp).2

/-- C8 witness: a concrete ok result whose element the theorem certifies
to be a regular file. -/
theorem c8_witness : isFilePath fsOneFile ["f.txt"] = true :=
  c8_only_regular_files fsOneFile "f.txt" false [["f.txt"]] rfl
    ["f.txt"] (by simp)

/-- C9: find_matching_paths is read-only — the filesystem component of its
result is the input filesystem — and idempotent: running it again on the
filesystem left by the first call, with the same arguments, yields the
same result. -/
theorem c9_readonly_idempotent (fs : Fs) (pat : String) (b : Bool) :
    (find_matching_paths fs pat b).1 = fs
    ∧ find_matching_paths (find_matching_paths fs pat b).1 pat b
        = find_matching_paths fs pat b := by
  refine ⟨find_matching_paths_fst fs pat b, ?_⟩
  rw [find_matching_paths_fst fs pat b]

/-- C10: for every pattern whose first wildcard-bearing segment sits at
index k, find_matching_paths behaves exactly as the glob branch run at the
base directory formed of the k segments preceding that segment; when k is
zero the base is the empty path, which denotes the current working
directory. -/
theorem c10_base_directory (fs : Fs) (pat : String) (b : Bool) (k : Nat)
    (hk : k < (parsePath pat).length)
    (hw : hasWildcard ((parsePath pat).getD k "") = true)
    (hmin : ∀ j, j < k → hasWildcard ((parsePath pat).getD j "") = false) :
    find_matching_paths fs pat b
      = globBranch fs ((parsePath pat).take k) ((parsePath pat).drop k) pat b := by
  obtain ⟨tl, htl⟩ := wildcardPositionsFrom_head (parsePath pat) 0 k hk hw hmin
  rw [Nat.zero_add] at htl
  exact find_eq_globBranch fs pat b k tl htl

/-- C10 witness: pattern a/* over a filesystem with directory a matches at
base directory a (the one segment before the wildcard). -/
theorem c10_witness :
    hasWildcard ((parsePath "a/*").getD 1 "") = true
    ∧ find_matching_paths fsDirA "a/*" false
        = globBranch fsDirA ((parsePath "a/*").take 1) ((parsePath "a/*").drop 1)
            "a/*" false :=
  ⟨rfl, c10_base_directory fsDirA "a/*" false 1 (by decide) rfl (by decide)⟩

end Kuling
